import Mathlib

/-!
Verification of the aligned-memory allocator in `memalign.c`.

The C code is modelled on a 64-bit machine: `size_t`, `uintptr_t` and
pointers are 64-bit unsigned integers, represented as `Nat` reduced
modulo `2 ^ 64` exactly where the C arithmetic wraps.  The 32-bit
intermediate `hdr_size` wraps modulo `2 ^ 32` and the 16-bit header
value (`offset_t`) wraps modulo `2 ^ 16`, as in the source.

The underlying allocator `malloc` is external to the file under
verification; it is modelled as a parameter `m : Nat → Option Nat`
mapping the requested byte count to `some rawAddress` on success and
`none` on failure (NULL).  `aligned_malloc` records, besides the value
it returns, the request it passed to `malloc` (if any) and the 16-bit
offset value it wrote into the header (if any), so that claims about
the interaction with the underlying allocator are expressible.
-/

namespace Memalign

/-- The modulus of 64-bit machine words (`size_t`, `uintptr_t`). -/
def wordMod : Nat := 2 ^ 64

/-- The modulus of the 32-bit intermediate `uint32_t hdr_size`. -/
def u32Mod : Nat := 2 ^ 32

/-- The modulus of the 16-bit header type `offset_t` (`uint16_t`). -/
def offMod : Nat := 2 ^ 16

/-- `sizeof(offset_t)`: the number of bytes used for the stored offset. -/
def PTR_OFFSET_SZ : Nat := 2

/-- C subtraction of 1 on a 64-bit unsigned word (wraps at 0). -/
def sub1 (x : Nat) : Nat := (x + (wordMod - 1)) % wordMod

/-- C bitwise complement `~x` on a 64-bit unsigned word. -/
def compl64 (x : Nat) : Nat := (wordMod - 1) - x % wordMod

/-- The macro `align_up(num, align) = ((num) + ((align)-1)) & ~((align)-1)`,
with 64-bit wraparound on the addition, as in the source. -/
def align_up (num align : Nat) : Nat :=
  ((num + sub1 align) % wordMod) &&& compl64 (sub1 align)

/-- The condition of `assert((align & (align - 1)) == 0)` in `aligned_malloc`. -/
def assertCheck (align : Nat) : Bool := align &&& sub1 align == 0

/-- `uint32_t hdr_size = PTR_OFFSET_SZ + (align - 1)`: the 64-bit sum is
narrowed to 32 bits by the `uint32_t` conversion. -/
def hdr_size (align : Nat) : Nat := (PTR_OFFSET_SZ + sub1 align) % u32Mod

/-- The observable effect of one `aligned_malloc` call: the returned pointer
(0 is NULL), the byte count passed to the underlying `malloc` (`none` when
`malloc` was never called), and the 16-bit value stored in the header
(`none` when no header was written). -/
structure AllocOutcome where
  retPtr : Nat
  mallocArg : Option Nat
  header : Option Nat
deriving DecidableEq

/-- `aligned_malloc(align, size)` past the assert (the assert is modelled
separately in `aligned_malloc_dbg`, since `assert` vanishes under
`NDEBUG`).  `m` models the underlying `malloc`.  Mirrors the source:
the guard `if(align && size)`, the call `malloc(size + hdr_size)`, the
rounding `ptr = align_up((uintptr_t)p + PTR_OFFSET_SZ, align)` and the
header store `*((offset_t*)ptr - 1) = (offset_t)((uintptr_t)ptr - (uintptr_t)p)`. -/
def aligned_malloc (align size : Nat) (m : Nat → Option Nat) : AllocOutcome :=
  if align ≠ 0 ∧ size ≠ 0 then
    match m ((size + hdr_size align) % wordMod) with
    | none => ⟨0, some ((size + hdr_size align) % wordMod), none⟩
    | some p =>
      let ptr := align_up ((p + PTR_OFFSET_SZ) % wordMod) align
      ⟨ptr, some ((size + hdr_size align) % wordMod),
        some (((ptr + wordMod - p % wordMod) % wordMod) % offMod)⟩
  else ⟨0, none, none⟩

/-- `aligned_malloc` in an assert-enabled build: `none` models the abort
raised by `assert((align & (align - 1)) == 0)` when the check fails. -/
def aligned_malloc_dbg (align size : Nat) (m : Nat → Option Nat) :
    Option AllocOutcome :=
  if assertCheck align then some (aligned_malloc align size m) else none

/-- `aligned_free(ptr)`: reads the 16-bit offset stored just before `ptr`
(here passed in as `storedOffset`, the value `aligned_malloc` wrote) and
returns the address `(uint8_t*)ptr - offset` that it hands to `free`,
with 64-bit wraparound as in pointer arithmetic. -/
def aligned_free (ptr storedOffset : Nat) : Nat :=
  (ptr % wordMod + wordMod - storedOffset % offMod) % wordMod

/-! ### Arithmetic characterisation of `align_up` for powers of two -/

theorem sub1_pow2 (k : Nat) (hk : k ≤ 63) : sub1 (2 ^ k) = 2 ^ k - 1 := by
  have h1 : (1 : Nat) ≤ 2 ^ k := Nat.one_le_two_pow
  have h2 : 2 ^ k ≤ 2 ^ 63 := Nat.pow_le_pow_right (by norm_num) hk
  unfold sub1 wordMod
  omega

theorem compl64_pow2 (k : Nat) (hk : k ≤ 63) :
    compl64 (2 ^ k - 1) = wordMod - 2 ^ k := by
  have h1 : (1 : Nat) ≤ 2 ^ k := Nat.one_le_two_pow
  have h2 : 2 ^ k ≤ 2 ^ 63 := Nat.pow_le_pow_right (by norm_num) hk
  unfold compl64 wordMod
  omega

/-- Masking a 64-bit value with `~(2^k - 1)` clears its low `k` bits. -/
theorem and_high_mask (x k : Nat) (hk : k ≤ 64) (hx : x < 2 ^ 64) :
    x &&& (2 ^ 64 - 2 ^ k) = 2 ^ k * (x / 2 ^ k) := by
  have hB : (1 : Nat) ≤ 2 ^ (64 - k) := Nat.one_le_two_pow
  have hmul : 2 ^ k * 2 ^ (64 - k) = 2 ^ 64 := by
    rw [← pow_add]
    congr 1
    omega
  have hmask : 2 ^ 64 - 2 ^ k = 2 ^ k * (2 ^ (64 - k) - 1) := by
    have hstep : 2 ^ k * (2 ^ (64 - k) - 1) + 2 ^ k = 2 ^ 64 := by
      rw [← Nat.mul_succ, Nat.succ_eq_add_one, Nat.sub_add_cancel hB, hmul]
    omega
  rw [hmask]
  apply Nat.eq_of_testBit_eq
  intro i
  rw [Nat.testBit_and, Nat.testBit_mul_pow_two, Nat.testBit_mul_pow_two,
    Nat.testBit_two_pow_sub_one]
  rcases Nat.lt_or_ge i k with hik | hik
  · simp [Nat.not_le_of_lt hik]
  · have hdiv : Nat.testBit (x / 2 ^ k) (i - k) = Nat.testBit x i := by
      rw [← Nat.shiftRight_eq_div_pow, Nat.testBit_shiftRight]
      congr 1
      omega
    rw [hdiv]
    rcases Nat.lt_or_ge i 64 with hi64 | hi64
    · have hlt : i - k < 64 - k := by omega
      simp [hik, hlt]
    · have hbit : Nat.testBit x i = false :=
        Nat.testBit_lt_two_pow
          (lt_of_lt_of_le hx (Nat.pow_le_pow_right (by norm_num) hi64))
      simp [hbit]

theorem align_up_pow2 (num k : Nat) (hk : k ≤ 63) :
    align_up num (2 ^ k) =
      2 ^ k * (((num + (2 ^ k - 1)) % wordMod) / 2 ^ k) := by
  unfold align_up
  rw [sub1_pow2 k hk, compl64_pow2 k hk]
  exact and_high_mask _ k (by omega)
    (Nat.mod_lt _ (by unfold wordMod; positivity))

/-- The result of `align_up` is always a multiple of the (power-of-two)
alignment, whatever the input address. -/
theorem align_up_mod (num k : Nat) (hk : k ≤ 63) :
    align_up num (2 ^ k) % 2 ^ k = 0 := by
  rw [align_up_pow2 num k hk]
  exact Nat.mul_mod_right _ _

/-- When the rounded-up value does not wrap past `2^64`, `align_up` rounds
up within the window `[num, num + 2^k - 1]`. -/
theorem align_up_bounds (num k : Nat) (hk : k ≤ 63)
    (hov : num + 2 ^ k ≤ wordMod) :
    num ≤ align_up num (2 ^ k) ∧ align_up num (2 ^ k) ≤ num + (2 ^ k - 1) := by
  have h1 : (1 : Nat) ≤ 2 ^ k := Nat.one_le_two_pow
  have hy : num + (2 ^ k - 1) < wordMod := by omega
  rw [align_up_pow2 num k hk, Nat.mod_eq_of_lt hy]
  have hdm : 2 ^ k * ((num + (2 ^ k - 1)) / 2 ^ k) + (num + (2 ^ k - 1)) % 2 ^ k
      = num + (2 ^ k - 1) := Nat.div_add_mod _ _
  have hr : (num + (2 ^ k - 1)) % 2 ^ k < 2 ^ k := Nat.mod_lt _ (by omega)
  omega

/-- Tie-break: when the input is already aligned, `align_up` is the identity. -/
theorem align_up_noop (num k : Nat) (hk : k ≤ 63)
    (hov : num + 2 ^ k ≤ wordMod) (h : num % 2 ^ k = 0) :
    align_up num (2 ^ k) = num := by
  have h1 : (1 : Nat) ≤ 2 ^ k := Nat.one_le_two_pow
  have hy : num + (2 ^ k - 1) < wordMod := by omega
  rw [align_up_pow2 num k hk, Nat.mod_eq_of_lt hy]
  have hmod : (num + (2 ^ k - 1)) % 2 ^ k = 2 ^ k - 1 := by
    obtain ⟨c, hc⟩ := Nat.dvd_of_mod_eq_zero h
    rw [hc, Nat.mul_add_mod]
    exact Nat.mod_eq_of_lt (by omega)
  have hdm : 2 ^ k * ((num + (2 ^ k - 1)) / 2 ^ k) + (num + (2 ^ k - 1)) % 2 ^ k
      = num + (2 ^ k - 1) := Nat.div_add_mod _ _
  omega

/-! ### Shape of `aligned_malloc` outcomes -/

theorem aligned_malloc_some (align size p : Nat) (m : Nat → Option Nat)
    (ha : align ≠ 0) (hs : size ≠ 0)
    (hm : m ((size + hdr_size align) % wordMod) = some p) :
    aligned_malloc align size m =
      ⟨align_up ((p + PTR_OFFSET_SZ) % wordMod) align,
       some ((size + hdr_size align) % wordMod),
       some (((align_up ((p + PTR_OFFSET_SZ) % wordMod) align + wordMod - p % wordMod)
          % wordMod) % offMod)⟩ := by
  unfold aligned_malloc
  rw [if_pos ⟨ha, hs⟩, hm]

theorem aligned_malloc_fail (align size : Nat) (m : Nat → Option Nat)
    (ha : align ≠ 0) (hs : size ≠ 0)
    (hm : m ((size + hdr_size align) % wordMod) = none) :
    aligned_malloc align size m =
      ⟨0, some ((size + hdr_size align) % wordMod), none⟩ := by
  unfold aligned_malloc
  rw [if_pos ⟨ha, hs⟩, hm]

/-- Master lemma: a successful `aligned_malloc` at a power-of-two alignment
whose padded block does not wrap past the address space returns an aligned
pointer `q` in the window `[p + PTR_OFFSET_SZ, p + PTR_OFFSET_SZ + (2^k - 1)]`
and stores the 16-bit truncation of the displacement `q - p`. -/
theorem aligned_malloc_success (k size p : Nat) (m : Nat → Option Nat)
    (hk : k ≤ 63) (hs : size ≠ 0)
    (hov : p + PTR_OFFSET_SZ + (2 ^ k - 1) < wordMod)
    (hm : m ((size + hdr_size (2 ^ k)) % wordMod) = some p) :
    ∃ q,
      aligned_malloc (2 ^ k) size m =
        ⟨q, some ((size + hdr_size (2 ^ k)) % wordMod), some ((q - p) % offMod)⟩ ∧
      q % 2 ^ k = 0 ∧ p + PTR_OFFSET_SZ ≤ q ∧
      q ≤ p + PTR_OFFSET_SZ + (2 ^ k - 1) := by
  have h1 : (1 : Nat) ≤ 2 ^ k := Nat.one_le_two_pow
  have ha : (2 : Nat) ^ k ≠ 0 := by omega
  have hnum : (p + PTR_OFFSET_SZ) % wordMod = p + PTR_OFFSET_SZ :=
    Nat.mod_eq_of_lt (by unfold PTR_OFFSET_SZ at hov ⊢; omega)
  have hbounds := align_up_bounds (p + PTR_OFFSET_SZ) k hk
    (by unfold PTR_OFFSET_SZ at hov ⊢; omega)
  have hmod := align_up_mod (p + PTR_OFFSET_SZ) k hk
  refine ⟨align_up (p + PTR_OFFSET_SZ) (2 ^ k), ?_, hmod, hbounds.1, hbounds.2⟩
  rw [aligned_malloc_some (2 ^ k) size p m ha hs hm, hnum]
  have hp : p % wordMod = p := Nat.mod_eq_of_lt (by omega)
  have hsub : align_up (p + PTR_OFFSET_SZ) (2 ^ k) + wordMod - p % wordMod
      = (align_up (p + PTR_OFFSET_SZ) (2 ^ k) - p) + wordMod := by omega
  rw [hsub, Nat.add_mod_right,
    Nat.mod_eq_of_lt (show align_up (p + PTR_OFFSET_SZ) (2 ^ k) - p < wordMod by omega)]

theorem aligned_malloc_guard_align (size : Nat) (m : Nat → Option Nat) :
    aligned_malloc 0 size m = ⟨0, none, none⟩ := by
  unfold aligned_malloc
  rw [if_neg (by simp)]

theorem aligned_malloc_guard_size (align : Nat) (m : Nat → Option Nat) :
    aligned_malloc align 0 m = ⟨0, none, none⟩ := by
  unfold aligned_malloc
  rw [if_neg (by simp)]

/-- Helper shared by the round-trip and lossless-cast results: for power-of-two
alignments up to `2 ^ 15` the stored header equals the true displacement and
`aligned_free` recovers the raw pointer exactly. -/
theorem aligned_recover (k size p : Nat) (m : Nat → Option Nat)
    (hk : k ≤ 15) (hs : size ≠ 0)
    (hov : p + PTR_OFFSET_SZ + (2 ^ k - 1) < wordMod)
    (hm : m ((size + hdr_size (2 ^ k)) % wordMod) = some p) :
    (aligned_malloc (2 ^ k) size m).header =
      some ((aligned_malloc (2 ^ k) size m).retPtr - p) ∧
    aligned_free (aligned_malloc (2 ^ k) size m).retPtr
      ((aligned_malloc (2 ^ k) size m).retPtr - p) = p := by
  obtain ⟨q, hout, hmodq, hlo, hhi⟩ :=
    aligned_malloc_success k size p m (by omega) hs hov hm
  have h2k : (2 : Nat) ^ k ≤ 2 ^ 15 := Nat.pow_le_pow_right (by norm_num) hk
  clear hmodq hm
  rw [hout]
  constructor
  · show some ((q - p) % offMod) = some (q - p)
    have hd : (q - p) % offMod = q - p := by
      apply Nat.mod_eq_of_lt
      unfold offMod PTR_OFFSET_SZ at *
      omega
    rw [hd]
  · show aligned_free q (q - p) = p
    unfold aligned_free offMod PTR_OFFSET_SZ wordMod at *
    omega

/-! ### Claims -/

/-- C1: for every alignment `2 ^ k` that is a nonzero power of two and
every size `s > 0`, if the underlying `malloc` succeeds with raw pointer
`p` then the pointer returned by `aligned_malloc` satisfies
`address mod alignment = 0`. -/
theorem aligned_malloc_aligned (k size p : Nat) (m : Nat → Option Nat)
    (hk : k ≤ 63) (hs : size ≠ 0)
    (hm : m ((size + hdr_size (2 ^ k)) % wordMod) = some p) :
    (aligned_malloc (2 ^ k) size m).retPtr % 2 ^ k = 0 := by
  have ha : (2 : Nat) ^ k ≠ 0 := by positivity
  rw [aligned_malloc_some (2 ^ k) size p m ha hs hm]
  exact align_up_mod _ k hk

/-- Witness for C1 at alignment `8`, size `100`, raw pointer `40`. -/
theorem aligned_malloc_aligned_witness :
    (aligned_malloc (2 ^ 3) 100 (fun _ => some 40)).retPtr % 2 ^ 3 = 0 :=
  aligned_malloc_aligned 3 100 40 (fun _ => some 40) (by norm_num) (by norm_num) rfl

/-- C2 counterexample: at alignment `2 ^ 16` with raw pointer `65535` the
stored 16-bit header is `1` (the true displacement `65537` truncated), so
`aligned_free` hands `131071` to `free`, not the raw pointer `65535`. -/
theorem roundtrip_cex :
    (aligned_malloc (2 ^ 16) 1 (fun _ => some 65535)).header = some 1 ∧
    (aligned_malloc (2 ^ 16) 1 (fun _ => some 65535)).retPtr = 131072 ∧
    aligned_free 131072 1 = 131071 ∧ (131071 : Nat) ≠ 65535 := by
  decide

/-- C2 (amended): for every power-of-two alignment `2 ^ k` with
`headerWidth + (2 ^ k - 1) ≤ 65535` (so the displacement fits the 16-bit
header) and a raw block that does not wrap the 64-bit address space,
`aligned_free` applied to the returned pointer and the stored offset
computes exactly the raw address `p` that the underlying allocator
produced for that call. -/
theorem roundtrip_recovers_raw (k size p : Nat) (m : Nat → Option Nat)
    (hk : PTR_OFFSET_SZ + (2 ^ k - 1) ≤ 65535) (hs : size ≠ 0)
    (hov : p + PTR_OFFSET_SZ + (2 ^ k - 1) < wordMod)
    (hm : m ((size + hdr_size (2 ^ k)) % wordMod) = some p) :
    ∃ off, (aligned_malloc (2 ^ k) size m).header = some off ∧
      aligned_free (aligned_malloc (2 ^ k) size m).retPtr off = p := by
  have hk15 : k ≤ 15 := by
    by_contra hcon
    have h16 : (2 : Nat) ^ 16 ≤ 2 ^ k := Nat.pow_le_pow_right (by norm_num) (by omega)
    unfold PTR_OFFSET_SZ at hk
    omega
  obtain ⟨hh, hf⟩ := aligned_recover k size p m hk15 hs hov hm
  exact ⟨_, hh, hf⟩

/-- Witness for C2 (amended) at alignment `16`, size `10`, raw pointer `33`. -/
theorem roundtrip_recovers_raw_witness :
    ∃ off, (aligned_malloc (2 ^ 4) 10 (fun _ => some 33)).header = some off ∧
      aligned_free (aligned_malloc (2 ^ 4) 10 (fun _ => some 33)).retPtr off = 33 :=
  roundtrip_recovers_raw 4 10 33 (fun _ => some 33) (by decide) (by decide)
    (by decide) rfl

/-- C3 counterexample: `6` is not a power of two, yet with assertions
compiled out (`NDEBUG`) `aligned_malloc(6, 10)` on raw pointer `8`
returns the nonzero pointer `10`, which is not a multiple of `6`: a
silently misaligned pointer, not an `InvalidAlignment` failure. -/
theorem assert_validation_cex :
    assertCheck 6 = false ∧
    (aligned_malloc 6 10 (fun _ => some 8)).retPtr = 10 ∧
    (10 : Nat) ≠ 0 ∧ (10 : Nat) % 6 ≠ 0 := by
  decide

/-- C3 (amended): the power-of-two validation is only the C `assert`,
which is not evaluated in `NDEBUG` builds.  With assertions enabled,
`aligned_malloc(6, size)` aborts (modelled as `none`) for every size and
underlying allocator, rather than returning a distinguishable
`InvalidAlignment` value; with assertions disabled it can return a
silently misaligned pointer. -/
theorem assert_based_validation :
    (∀ size : Nat, ∀ m : Nat → Option Nat, aligned_malloc_dbg 6 size m = none) ∧
    (aligned_malloc 6 10 (fun _ => some 8)).retPtr ≠ 0 ∧
    (aligned_malloc 6 10 (fun _ => some 8)).retPtr % 6 ≠ 0 := by
  refine ⟨fun size m => ?_, by decide, by decide⟩
  unfold aligned_malloc_dbg
  rw [show assertCheck 6 = false from by decide]
  rfl

/-- C4 counterexample: the outcome of `aligned_malloc(0, 5)` is identical
to that of `aligned_malloc(7, 0)`, and its returned value equals the one
returned when the underlying allocator fails: the NULL return does not
distinguish `InvalidAlignment` from `InvalidSize` (nor from
`UnderlyingAllocationFailure`). -/
theorem invalid_args_cex :
    aligned_malloc 0 5 (fun _ => some 96) = aligned_malloc 7 0 (fun _ => some 96) ∧
    (aligned_malloc 0 5 (fun _ => some 96)).retPtr =
      (aligned_malloc 8 5 (fun _ => none)).retPtr := by
  decide

/-- C4 (amended): `aligned_malloc(0, s)` and `aligned_malloc(a, 0)` both
return NULL — the same undistinguished failure value — never a nonzero
pointer, and make no call to the underlying allocator. -/
theorem null_on_invalid_args :
    ∀ (s a : Nat) (m : Nat → Option Nat),
      aligned_malloc 0 s m = ⟨0, none, none⟩ ∧
      aligned_malloc a 0 m = ⟨0, none, none⟩ :=
  fun s a m => ⟨aligned_malloc_guard_align s m, aligned_malloc_guard_size a m⟩

/-- C5: for every valid alignment and size, when the underlying allocator
returns NULL for the padded request, `aligned_malloc` returns NULL
unchanged, writes no header, and made exactly that one request. -/
theorem oom_propagation (align size : Nat) (m : Nat → Option Nat)
    (ha : align ≠ 0) (hs : size ≠ 0)
    (hm : m ((size + hdr_size align) % wordMod) = none) :
    aligned_malloc align size m =
      ⟨0, some ((size + hdr_size align) % wordMod), none⟩ :=
  aligned_malloc_fail align size m ha hs hm

/-- Witness for C5 at alignment `8`, size `100`, with a failing allocator. -/
theorem oom_propagation_witness :
    aligned_malloc 8 100 (fun _ => none) = ⟨0, some 109, none⟩ :=
  (oom_propagation 8 100 (fun _ => none) (by norm_num) (by norm_num) rfl).trans
    (by decide)

/-- C6 counterexample: at alignment `2 ^ 16` with raw pointer `65535` the
value written into the header is `1`, which is strictly below
`headerWidth = 2`, violating the claimed lower bound. -/
theorem offset_bounds_cex :
    (aligned_malloc (2 ^ 16) 7 (fun _ => some 65535)).header = some 1 ∧
    (1 : Nat) < PTR_OFFSET_SZ := by
  decide

/-- C6 (amended): for every power-of-two alignment `2 ^ k` with
`headerWidth + (2 ^ k - 1) ≤ 65535` and a raw block that does not wrap
the address space, the offset written into the header satisfies
`headerWidth ≤ offset ≤ headerWidth + (2 ^ k - 1)`. -/
theorem offset_bounds (k size p : Nat) (m : Nat → Option Nat)
    (hk : PTR_OFFSET_SZ + (2 ^ k - 1) ≤ 65535) (hs : size ≠ 0)
    (hov : p + PTR_OFFSET_SZ + (2 ^ k - 1) < wordMod)
    (hm : m ((size + hdr_size (2 ^ k)) % wordMod) = some p) :
    ∃ off, (aligned_malloc (2 ^ k) size m).header = some off ∧
      PTR_OFFSET_SZ ≤ off ∧ off ≤ PTR_OFFSET_SZ + (2 ^ k - 1) := by
  have hk15 : k ≤ 15 := by
    by_contra hcon
    have h16 : (2 : Nat) ^ 16 ≤ 2 ^ k := Nat.pow_le_pow_right (by norm_num) (by omega)
    unfold PTR_OFFSET_SZ at hk
    omega
  obtain ⟨q, hout, hmodq, hlo, hhi⟩ :=
    aligned_malloc_success k size p m (by omega) hs hov hm
  have h2k : (2 : Nat) ^ k ≤ 2 ^ 15 := Nat.pow_le_pow_right (by norm_num) hk15
  clear hmodq hm
  refine ⟨(q - p) % offMod, by rw [hout], ?_, ?_⟩ <;>
    · unfold offMod PTR_OFFSET_SZ at *
      omega

/-- Witness for C6 (amended) at alignment `32`, size `7`, raw pointer `90`. -/
theorem offset_bounds_witness :
    ∃ off, (aligned_malloc (2 ^ 5) 7 (fun _ => some 90)).header = some off ∧
      PTR_OFFSET_SZ ≤ off ∧ off ≤ PTR_OFFSET_SZ + (2 ^ 5 - 1) :=
  offset_bounds 5 7 90 (fun _ => some 90) (by decide) (by decide) (by decide) rfl

/-- C7 counterexample: alignment `2 ^ 32` passes the power-of-two assert
and the guard, yet because `hdr_size` is a `uint32_t` the padded request
for `aligned_malloc(2 ^ 32, 1)` is `2` bytes, not
`1 + (headerWidth + (2 ^ 32 - 1))`. -/
theorem padded_request_cex :
    assertCheck (2 ^ 32) = true ∧
    (aligned_malloc (2 ^ 32) 1 (fun _ => none)).mallocArg = some 2 ∧
    (2 : Nat) ≠ 1 + (PTR_OFFSET_SZ + (2 ^ 32 - 1)) := by
  decide

/-- C7 (amended): for every accepted alignment and size with
`headerWidth + (align - 1) < 2 ^ 32` (no `uint32_t` truncation) and a
padded size that fits `size_t`, the byte count requested from the
underlying allocator is exactly `size + (headerWidth + (align - 1))`. -/
theorem padded_request (align size : Nat) (m : Nat → Option Nat)
    (ha : align ≠ 0) (hs : size ≠ 0)
    (hsmall : PTR_OFFSET_SZ + (align - 1) < u32Mod)
    (hfit : size + (PTR_OFFSET_SZ + (align - 1)) < wordMod) :
    (aligned_malloc align size m).mallocArg =
      some (size + (PTR_OFFSET_SZ + (align - 1))) := by
  have hh : hdr_size align = PTR_OFFSET_SZ + (align - 1) := by
    unfold hdr_size sub1 PTR_OFFSET_SZ u32Mod wordMod at *
    omega
  have hreq : (size + hdr_size align) % wordMod
      = size + (PTR_OFFSET_SZ + (align - 1)) := by
    rw [hh]
    exact Nat.mod_eq_of_lt hfit
  unfold aligned_malloc
  rw [if_pos ⟨ha, hs⟩]
  cases hmc : m ((size + hdr_size align) % wordMod)
  · show some ((size + hdr_size align) % wordMod) = _
    rw [hreq]
  · show some ((size + hdr_size align) % wordMod) = _
    rw [hreq]

/-- Witness for C7 (amended) at alignment `8`, size `100`. -/
theorem padded_request_witness :
    (aligned_malloc 8 100 (fun _ => none)).mallocArg =
      some (100 + (PTR_OFFSET_SZ + (8 - 1))) :=
  padded_request 8 100 (fun _ => none) (by norm_num) (by norm_num) (by decide)
    (by decide)

/-- C8: when the raw pointer `p` returned by the underlying allocator is
such that `p + headerWidth` is already a multiple of the alignment, the
rounding is a no-op — the returned pointer is `p + headerWidth` — and the
stored offset is exactly `headerWidth`. -/
theorem tiebreak_offset (k size p : Nat) (m : Nat → Option Nat)
    (hk : k ≤ 63) (hs : size ≠ 0)
    (hov : p + PTR_OFFSET_SZ + (2 ^ k - 1) < wordMod)
    (halign : (p + PTR_OFFSET_SZ) % 2 ^ k = 0)
    (hm : m ((size + hdr_size (2 ^ k)) % wordMod) = some p) :
    (aligned_malloc (2 ^ k) size m).retPtr = p + PTR_OFFSET_SZ ∧
    (aligned_malloc (2 ^ k) size m).header = some PTR_OFFSET_SZ := by
  have h1 : (1 : Nat) ≤ 2 ^ k := Nat.one_le_two_pow
  have ha : (2 : Nat) ^ k ≠ 0 := by omega
  rw [aligned_malloc_some (2 ^ k) size p m ha hs hm]
  have hnum : (p + PTR_OFFSET_SZ) % wordMod = p + PTR_OFFSET_SZ :=
    Nat.mod_eq_of_lt (by unfold PTR_OFFSET_SZ at *; omega)
  rw [hnum]
  have hid : align_up (p + PTR_OFFSET_SZ) (2 ^ k) = p + PTR_OFFSET_SZ :=
    align_up_noop _ k hk (by unfold PTR_OFFSET_SZ at *; omega) halign
  rw [hid]
  refine ⟨rfl, ?_⟩
  show some ((p + PTR_OFFSET_SZ + wordMod - p % wordMod) % wordMod % offMod)
      = some PTR_OFFSET_SZ
  have hp : p % wordMod = p := Nat.mod_eq_of_lt (by unfold PTR_OFFSET_SZ at *; omega)
  rw [hp]
  refine congrArg some ?_
  unfold PTR_OFFSET_SZ wordMod offMod
  omega

/-- Witness for C8 at alignment `8`, size `5`, raw pointer `6` (so that
`6 + 2 = 8` is already aligned). -/
theorem tiebreak_offset_witness :
    (aligned_malloc (2 ^ 3) 5 (fun _ => some 6)).retPtr = 6 + PTR_OFFSET_SZ ∧
    (aligned_malloc (2 ^ 3) 5 (fun _ => some 6)).header = some PTR_OFFSET_SZ :=
  tiebreak_offset 3 5 6 (fun _ => some 6) (by norm_num) (by norm_num) (by decide)
    (by decide) rfl

/-- C9: the 16-bit narrowing of the computed offset is lossless — the
stored header equals the true displacement, and `aligned_free` recovers
the raw pointer exactly — for every power-of-two alignment `2 ^ k` with
`headerWidth + (2 ^ k - 1) ≤ 65535`; and at alignment `2 ^ 16` there is a
raw address for which the cast truncates the offset and the recovered
address differs from the raw one. -/
theorem lossless_cast :
    (∀ k size p : Nat, ∀ m : Nat → Option Nat,
      PTR_OFFSET_SZ + (2 ^ k - 1) ≤ 65535 → size ≠ 0 →
      p + PTR_OFFSET_SZ + (2 ^ k - 1) < wordMod →
      m ((size + hdr_size (2 ^ k)) % wordMod) = some p →
      (aligned_malloc (2 ^ k) size m).header =
        some ((aligned_malloc (2 ^ k) size m).retPtr - p) ∧
      aligned_free (aligned_malloc (2 ^ k) size m).retPtr
        ((aligned_malloc (2 ^ k) size m).retPtr - p) = p) ∧
    (∃ p off : Nat, p ≠ 0 ∧
      (aligned_malloc (2 ^ 16) 3 (fun _ => some p)).header = some off ∧
      off ≠ (aligned_malloc (2 ^ 16) 3 (fun _ => some p)).retPtr - p ∧
      aligned_free (aligned_malloc (2 ^ 16) 3 (fun _ => some p)).retPtr off ≠ p) := by
  constructor
  · intro k size p m hbound hs hov hm
    have hk15 : k ≤ 15 := by
      by_contra hcon
      have h16 : (2 : Nat) ^ 16 ≤ 2 ^ k := Nat.pow_le_pow_right (by norm_num) (by omega)
      unfold PTR_OFFSET_SZ at hbound
      omega
    exact aligned_recover k size p m hk15 hs hov hm
  · exact ⟨65535, 1, by decide, by decide, by decide, by decide⟩

/-- Witness for C9 (first conjunct) at alignment `16`, size `10`, raw
pointer `33`. -/
theorem lossless_cast_witness :
    (aligned_malloc (2 ^ 4) 10 (fun _ => some 33)).header =
      some ((aligned_malloc (2 ^ 4) 10 (fun _ => some 33)).retPtr - 33) ∧
    aligned_free (aligned_malloc (2 ^ 4) 10 (fun _ => some 33)).retPtr
      ((aligned_malloc (2 ^ 4) 10 (fun _ => some 33)).retPtr - 33) = 33 :=
  lossless_cast.1 4 10 33 (fun _ => some 33) (by decide) (by decide) (by decide) rfl

/-- C10: the assertion condition `(align & (align - 1)) == 0` is satisfied
by `align = 0`, so zero alignment passes the assertion even in
assert-enabled builds; only the `if(align && size)` guard stops a
zero-alignment or zero-size call, in which case no allocation, rounding or
header write happens and NULL is returned. -/
theorem zero_align_assert :
    assertCheck 0 = true ∧
    (∀ size : Nat, ∀ m : Nat → Option Nat,
      aligned_malloc_dbg 0 size m = some ⟨0, none, none⟩) ∧
    (∀ align : Nat, ∀ m : Nat → Option Nat,
      aligned_malloc align 0 m = ⟨0, none, none⟩) := by
  refine ⟨by decide, fun size m => ?_, fun align m => aligned_malloc_guard_size align m⟩
  unfold aligned_malloc_dbg
  rw [show assertCheck 0 = true from by decide, if_pos rfl,
    aligned_malloc_guard_align size m]

end Memalign

